import Mathlib

/-!
Shallow embedding of the sqlquiz core: the statement validator and paginated
query executor (`utils/query_validation.py`), and the ingestion pipeline
(`utils/data_processing.py`, plus `process_zip_upload` /
`format_cents_to_dollars` from `app.py`).  Query texts and values are
`List Char`; Python's `float` on CSV cell text is modelled exactly as the
rational value of the decimal literal.
-/

namespace SqlQuiz

/-- Python `str.isspace` characters relevant to `str.strip` / regex `\s`
(ASCII range, which is all the code relies on). -/
def pyIsSpace (c : Char) : Bool :=
  c = ' ' || c = '\t' || c = '\n' || c = '\r' || c = '\x0b' || c = '\x0c'

/-- Regex `\w` (word character): letters, digits, underscore. -/
def isWordChar (c : Char) : Bool :=
  c.isAlpha || c.isDigit || c = '_'

def lowerChars (s : List Char) : List Char := s.map Char.toLower

/-- Python `str.strip()`: drop leading and trailing whitespace. -/
def pyStrip (s : List Char) : List Char :=
  ((s.dropWhile pyIsSpace).reverse.dropWhile pyIsSpace).reverse

/-- State machine for `re.sub(r'--.*$', '', query, flags=re.MULTILINE)`,
which cuts every line at its first `--`: the flag records being inside a
line comment, which ends at the newline (kept, since `.` does not match
it). -/
def lineCommentsAux : Bool → List Char → List Char
  | _, [] => []
  | true, '\n' :: rest => '\n' :: lineCommentsAux false rest
  | true, _ :: rest => lineCommentsAux true rest
  | false, '-' :: '-' :: rest => lineCommentsAux true rest
  | false, c :: rest => c :: lineCommentsAux false rest

def removeLineComments (q : List Char) : List Char := lineCommentsAux false q

/-- Scan for the first `*/`; on success return the remainder after it. -/
def findBlockClose : List Char → Option (List Char)
  | [] => none
  | [_] => none
  | c :: c' :: rest =>
    if c = '*' && c' = '/' then some rest
    else findBlockClose (c' :: rest)

/-- Fuel-indexed scan for `re.sub(r'/\*.*?\*/', '', query, flags=re.DOTALL)`:
non-greedy leftmost removal of block comments; an unclosed `/*` is left in
place (the regex cannot match it, and no later match exists since no `*/`
remains).  Every step consumes at least one character of the remaining list,
so fuel `q.length` never runs out. -/
def blockCommentsAux : Nat → List Char → List Char
  | 0, s => s
  | _ + 1, [] => []
  | fuel + 1, c :: rest =>
    match c, rest with
    | '/', '*' :: rest' =>
      (match findBlockClose rest' with
       | some rest2 => blockCommentsAux fuel rest2
       | none => '/' :: '*' :: blockCommentsAux fuel rest')
    | _, _ => c :: blockCommentsAux fuel rest

def removeBlockComments (q : List Char) : List Char := blockCommentsAux q.length q

/-- `remove_sql_comments` (query_validation.py:65-73): line comments are
removed first, then block comments. -/
def remove_sql_comments (q : List Char) : List Char :=
  removeBlockComments (removeLineComments q)

/-- `sub` (given in lowercase) occurs in `s` at index `i`, case-insensitively:
models `re.search` finding a match of a literal word at that position under
`re.IGNORECASE`. -/
def occursAtCI (s sub : List Char) (i : Nat) : Bool :=
  lowerChars ((s.drop i).take sub.length) = sub

/-- Case-insensitive substring containment; also models Python's
`sub in s.lower()` for a lowercase `sub`. -/
def containsCI (s sub : List Char) : Bool :=
  (List.range (s.length + 1)).any (occursAtCI s sub)

/-- The character at index `i` is absent (string boundary) or a non-word
character: one side of a regex `\b` around a purely alphabetic keyword. -/
def nonWordAt (s : List Char) (i : Nat) : Bool :=
  match s[i]? with
  | some c => !isWordChar c
  | none => true

/-- `\bkw\b` matches at index `i` (for an alphabetic `kw`, `\b` on each side
is exactly: adjacent position outside the string or holding a non-word
character). -/
def keywordAt (s kw : List Char) (i : Nat) : Bool :=
  occursAtCI s kw i && (i = 0 || nonWordAt s (i - 1)) && nonWordAt s (i + kw.length)

/-- `re.search(rf'\b{keyword}\b', s, re.IGNORECASE)` finds a match. -/
def containsKeywordWord (s kw : List Char) : Bool :=
  (List.range (s.length + 1)).any (keywordAt s kw)

/-- `DANGEROUS_KEYWORDS` (query_validation.py:12-16), lowercased since all
matching is case-insensitive. -/
def DANGEROUS_KEYWORDS : List (List Char) :=
  ["drop".data, "delete".data, "insert".data, "update".data, "alter".data,
   "create".data, "truncate".data, "replace".data, "merge".data, "grant".data,
   "revoke".data, "exec".data, "execute".data, "pragma".data, "attach".data,
   "detach".data]

/-- The keyword alternation `(DROP|DELETE|INSERT|UPDATE|ALTER|CREATE)` common
to the three `DANGEROUS_PATTERNS` (query_validation.py:18-22). -/
def PATTERN_KEYWORDS : List (List Char) :=
  ["drop".data, "delete".data, "insert".data, "update".data, "alter".data,
   "create".data]

/-- One of the six pattern keywords is a (case-insensitive) prefix of `s`. -/
def patternKeywordPrefix (s : List Char) : Bool :=
  PATTERN_KEYWORDS.any (fun kw => occursAtCI s kw 0)

/-- One of the six pattern keywords occurs (case-insensitively) anywhere. -/
def containsPatternKeyword (s : List Char) : Bool :=
  (List.range (s.length + 1)).any (fun i => patternKeywordPrefix (s.drop i))

/-- Regex `;\s*(DROP|DELETE|INSERT|UPDATE|ALTER|CREATE)`: a `;` followed by
whitespace and then a keyword (the keywords start with non-whitespace, so
greedy `\s*` with backtracking is equivalent to skipping all whitespace). -/
def dangerousPattern1 (s : List Char) : Bool :=
  (List.range s.length).any (fun i =>
    s[i]? = some ';' && patternKeywordPrefix ((s.drop (i + 1)).dropWhile pyIsSpace))

/-- Regex `--.*?(DROP|...)` with `re.DOTALL`: a `--` with a keyword anywhere
after it. -/
def dangerousPattern2 (s : List Char) : Bool :=
  (List.range s.length).any (fun i =>
    occursAtCI s "--".data i && containsPatternKeyword (s.drop (i + 2)))

/-- Regex `/\*.*?(DROP|...).*?\*/` with `re.DOTALL`: `/*`, then a keyword,
then `*/`, in order without overlap. -/
def dangerousPattern3 (s : List Char) : Bool :=
  (List.range s.length).any (fun i =>
    occursAtCI s "/*".data i &&
      ((List.range s.length).any (fun j =>
        PATTERN_KEYWORDS.any (fun kw =>
          occursAtCI (s.drop (i + 2)) kw j &&
            containsCI (((s.drop (i + 2)).drop (j + kw.length))) "*/".data))))

/-- The `DANGEROUS_PATTERNS` loop (query_validation.py:44-46). -/
def matchesDangerousPatterns (s : List Char) : Bool :=
  dangerousPattern1 s || dangerousPattern2 s || dangerousPattern3 s

/-- Python `str.split(';')`. -/
def splitSemi : List Char → List (List Char)
  | [] => [[]]
  | c :: rest =>
    if c = ';' then [] :: splitSemi rest
    else
      match splitSemi rest with
      | s :: ss => (c :: s) :: ss
      | [] => [[c]]

/-- A segment is blank when `stmt.strip()` is falsy, i.e. all whitespace. -/
def isBlank (s : List Char) : Bool := s.all pyIsSpace

/-- `len([stmt.strip() for stmt in q.split(';') if stmt.strip()])`
(query_validation.py:49). -/
def nonBlankStatements (q : List Char) : Nat :=
  ((splitSemi q).filter (fun s => !isBlank s)).length

/-- `re.match(r'^\s*SELECT\b', s.strip(), re.IGNORECASE)` succeeds
(query_validation.py:54). -/
def startsWithSelect (s : List Char) : Bool :=
  match lowerChars (pyStrip s) with
  | 's' :: 'e' :: 'l' :: 'e' :: 'c' :: 't' :: rest =>
    match rest with
    | [] => true
    | c :: _ => !isWordChar c
  | _ => false

/-- `validate_query`'s verdict, one constructor per distinct return of
query_validation.py:25-62 (`allowed` is `(True, None)`, the others carry the
corresponding error message). -/
inductive Verdict
  | allowed
  | deniedEmpty
  | deniedKeyword
  | deniedPattern
  | deniedMultiple
  | deniedNotSelect
  deriving DecidableEq

/-- `validate_query` (query_validation.py:25-62).  The query is stripped,
an analysis copy has comments removed, and the checks run in source order:
dangerous keywords, dangerous patterns, multiple statements (on the stripped
original, comments included), and the leading-SELECT requirement.  The
missing-LIMIT case only prints a warning and does not affect the verdict. -/
def validate_query (q : List Char) : Verdict :=
  if pyStrip q = [] then .deniedEmpty
  else if DANGEROUS_KEYWORDS.any
      (fun kw => containsKeywordWord (remove_sql_comments (pyStrip q)) kw) then .deniedKeyword
  else if matchesDangerousPatterns (remove_sql_comments (pyStrip q)) then .deniedPattern
  else if 1 < nonBlankStatements (pyStrip q) then .deniedMultiple
  else if !startsWithSelect (remove_sql_comments (pyStrip q)) then .deniedNotSelect
  else .allowed

/-- The validator refused the query (`is_valid = False`). -/
def isDenied (v : Verdict) : Bool := v ≠ Verdict.allowed

/-- Decimal rendering of a number, as Python f-string interpolation does. -/
def natDigits (n : Nat) : List Char := (toString n).data

/-- A result row as returned by the store engine. -/
abbrev Row := List (List Char)

/-- `count_query` (query_validation.py:95): the unmodified query text wrapped
in a COUNT(*) subquery. -/
def count_query (q : List Char) : List Char :=
  "SELECT COUNT(*) as total_count FROM (".data ++ q ++ ") as subquery".data

/-- `paginated_query` (query_validation.py:103): the unmodified query text
with `LIMIT rows_per_page OFFSET offset` appended. -/
def paginated_query (q : List Char) (rows_per_page offset : Nat) : List Char :=
  q ++ " LIMIT ".data ++ natDigits rows_per_page ++ " OFFSET ".data ++ natDigits offset

/-- The SQLite store, abstracted as the result (row list, or engine error
message) of evaluating a bare SELECT text.  `count_query q` then evaluates to
the length of `run q`'s rows, and `paginated_query q n m` to
`((run q).drop m).take n` — the standard LIMIT/OFFSET semantics the executor
relies on. -/
structure Engine where
  run : List Char → Except (List Char) (List Row)

/-- The three fixed replacement messages of query_validation.py:127-132. -/
def tableNotFoundMsg : List Char :=
  "Table not found. Check the schema for available tables.".data

def columnNotFoundMsg : List Char :=
  "Column not found. Check the table schema for available columns.".data

def syntaxErrorMsg : List Char :=
  "SQL syntax error. Please check your query syntax.".data

/-- The error-message rewriting of query_validation.py:126-132: three
lowercased substring tests, and otherwise `str(e)` is kept unchanged. -/
def sanitize_error_message (msg : List Char) : List Char :=
  if containsCI msg "no such table".data then tableNotFoundMsg
  else if containsCI msg "no such column".data then columnNotFoundMsg
  else if containsCI msg "syntax error".data then syntaxErrorMsg
  else msg

/-- The successful payload of `execute_safe_query` (query_validation.py:120);
column names come from the engine cursor and are not modelled. -/
structure QueryPage where
  data : List Row
  total_count : Nat
  page : Nat
  rows_per_page : Nat
  deriving DecidableEq

/-- The three return shapes of `execute_safe_query`: validation refusal
(query_validation.py:84), engine failure with `total_count = 0`
(query_validation.py:134), and success. -/
inductive ExecOutcome
  | invalid (v : Verdict)
  | failure (error : List Char)
  | success (p : QueryPage)
  deriving DecidableEq

/-- `total_count` as reported to the caller: 0 on any failure. -/
def totalCountOf : ExecOutcome → Nat
  | .success p => p.total_count
  | _ => 0

/-- `execute_safe_query` (query_validation.py:76-134): validate, compute
`total_count` by running `count_query q` (the COUNT(*) wrapper over the
unmodified text), then run `paginated_query q rows_per_page offset` with
`offset = (page - 1) * rows_per_page`; both evaluated through the engine
semantics described at `Engine`.  Engine exceptions are mapped through
`sanitize_error_message` with `total_count = 0`. -/
def execute_safe_query (e : Engine) (q : List Char) (page rows_per_page : Nat) :
    ExecOutcome :=
  match validate_query q with
  | .allowed =>
    match e.run q with
    | .ok rows =>
      .success { data := (rows.drop ((page - 1) * rows_per_page)).take rows_per_page,
                 total_count := rows.length,
                 page := page,
                 rows_per_page := rows_per_page }
    | .error msg => .failure (sanitize_error_message msg)
  | v => .invalid v

/-! ### Ingestion pipeline (`utils/data_processing.py`) -/

/-- Consume an optional `+`/`-` sign, as Python number parsing does. -/
def splitSign : List Char → Int × List Char
  | '+' :: r => (1, r)
  | '-' :: r => (-1, r)
  | s => (1, s)

def takeDigits (s : List Char) : List Char × List Char :=
  (s.takeWhile Char.isDigit, s.dropWhile Char.isDigit)

def digitsToNat (ds : List Char) : Nat :=
  ds.foldl (fun a c => a * 10 + (c.toNat - 48)) 0

/-- An exact decimal number `mant / 10 ^ exp`: the value of every decimal
literal Python `float()` accepts in this pipeline.  Kept unnormalized so all
operations are plain integer arithmetic. -/
structure DecValue where
  mant : Int
  exp : Nat
  deriving DecidableEq

/-- The two representations denote the same rational number. -/
def DecValue.eqv (a b : DecValue) : Bool :=
  a.mant * 10 ^ b.exp = b.mant * 10 ^ a.exp

/-- Multiply by `10 ^ k`. -/
def DecValue.mulPow10 (v : DecValue) (k : Nat) : DecValue :=
  if k ≤ v.exp then ⟨v.mant, v.exp - k⟩ else ⟨v.mant * 10 ^ (k - v.exp), 0⟩

/-- Divide by `10 ^ k`. -/
def DecValue.divPow10 (v : DecValue) (k : Nat) : DecValue :=
  ⟨v.mant, v.exp + k⟩

/-- Optional exponent suffix of a float literal; the whole remainder must be
consumed. -/
def parseExpSuffix (v : DecValue) : List Char → Option DecValue
  | [] => some v
  | c :: r =>
    if c = 'e' ∨ c = 'E' then
      let (esg, r1) := splitSign r
      let (ed, r2) := takeDigits r1
      if ed = [] ∨ r2 ≠ [] then none
      else if esg = 1 then some (v.mulPow10 (digitsToNat ed))
      else some (v.divPow10 (digitsToNat ed))
    else none

/-- Model of Python `float()` on the already-stripped CSV cell text: accepts
`[sign] (digits [. digits] | . digits) [e [sign] digits]` and yields the exact
value of the literal (the binary floating-point rounding Python then performs
is not modelled; the code only compares the value with its integer truncation
and scales by 100, for which the exact value is the intent).  `inf`/`nan` and
digit-group underscores are treated as unparsable. -/
def parsePyFloat (s : List Char) : Option DecValue :=
  let (sg, r1) := splitSign s
  let (ip, r2) := takeDigits r1
  match r2 with
  | '.' :: r3 =>
    let (fp, r4) := takeDigits r3
    if ip = [] ∧ fp = [] then none
    else parseExpSuffix
      ⟨sg * ((digitsToNat ip * 10 ^ fp.length + digitsToNat fp : Nat) : Int), fp.length⟩ r4
  | _ =>
    if ip = [] then none
    else parseExpSuffix ⟨sg * ((digitsToNat ip : Nat) : Int), 0⟩ r2

/-- The value is integral, exactly when Python's `float(v) == int(float(v))`
holds for the value it models. -/
def isIntegral (v : DecValue) : Bool := v.mant % ((10 : Int) ^ v.exp) = 0

/-- Python `round()` on the value: round half to even (banker's rounding). -/
def pyRound (v : DecValue) : Int :=
  let d : Int := 10 ^ v.exp
  let f := v.mant.fdiv d
  let r := v.mant - f * d
  if 2 * r < d then f
  else if d < 2 * r then f + 1
  else if f % 2 = 0 then f else f + 1

/-- `clean_value` (data_processing.py:17-26): empty, whitespace-only and
case-insensitive `N/A` cells become `None`; otherwise a leading BOM is
dropped and the value is stripped. -/
def clean_value (v : List Char) : Option (List Char) :=
  if v = [] ∨ pyStrip v = [] ∨ v.map Char.toUpper = "N/A".data then none
  else
    let v' := if v.head? = some '\uFEFF' then v.tail else v
    some (pyStrip v')

/-- Digits-only, non-empty. -/
def isDigits (s : List Char) : Bool := s ≠ [] && s.all Char.isDigit

/-- Split on a separator character, Python `str.split(sep)` style. -/
def splitOnChar (sep : Char) : List Char → List (List Char)
  | [] => [[]]
  | c :: rest =>
    if c = sep then [] :: splitOnChar sep rest
    else
      match splitOnChar sep rest with
      | s :: ss => (c :: s) :: ss
      | [] => [[c]]

def pad0 (k : Nat) (s : List Char) : List Char :=
  List.replicate (k - s.length) '0' ++ s

/-- ISO rendering `YYYY-MM-DD` of a parsed date, as `date.isoformat()`. -/
def mkIsoDate (y m d : List Char) : List Char :=
  pad0 4 y ++ '-' :: (pad0 2 m ++ '-' :: pad0 2 d)

/-- One field of a strptime date: digits, bounded length and value range. -/
def dateField (s : List Char) (maxLen lo hi : Nat) : Bool :=
  isDigits s && s.length ≤ maxLen && lo ≤ digitsToNat s && digitsToNat s ≤ hi

/-- `parse_date` (data_processing.py:29-46): try `%Y-%m-%d`, then `%m/%d/%Y`,
else `None`; a success is rendered back as ISO text.  strptime's
month-length/leap-day checks are simplified to the 1..12 / 1..31 ranges,
which no claim depends on. -/
def parse_date (v : List Char) : Option (List Char) :=
  if v = [] ∨ pyStrip v = [] ∨ v.map Char.toUpper = "N/A".data then none
  else
    match clean_value v with
    | none => none
    | some s =>
      if s = [] then none
      else
        match splitOnChar '-' s with
        | [y, m, d] =>
          if dateField y 4 0 9999 && dateField m 2 1 12 && dateField d 2 1 31 then
            some (mkIsoDate y m d)
          else none
        | _ =>
          match splitOnChar '/' s with
          | [m, d, y] =>
            if dateField y 4 0 9999 && dateField m 2 1 12 && dateField d 2 1 31 then
              some (mkIsoDate y m d)
            else none
          | _ => none

/-- `parse_decimal` (data_processing.py:49-61): `float(value)` or `None`. -/
def parse_decimal (v : List Char) : Option DecValue :=
  if v = [] ∨ pyStrip v = [] ∨ v.map Char.toUpper = "N/A".data then none
  else
    match clean_value v with
    | none => none
    | some s => if s = [] then none else parsePyFloat s

/-- `parse_money_to_cents` (data_processing.py:64-82): clean, strip `$` and
`,`, parse as a number, scale by 100 and round to integer cents; unparsable
input gives `None`. -/
def parse_money_to_cents (v : List Char) : Option Int :=
  if v = [] ∨ pyStrip v = [] ∨ v.map Char.toUpper = "N/A".data then none
  else
    match clean_value v with
    | none => none
    | some s =>
      if s = [] then none
      else
        let s' := s.filter (fun c => !(c = '$' || c = ','))
        match parsePyFloat s' with
        | none => none
        | some dollars => some (pyRound (dollars.mulPow10 2))

/-- `format_cents_to_dollars` (app.py:272-276): `cents / 100.0`, with `None`
passed through. -/
def format_cents_to_dollars (cents : Option Int) : Option DecValue :=
  cents.map (fun c => DecValue.mk c 2)

/-- `non_money_indicators` (data_processing.py:90-93). -/
def NON_MONEY_INDICATORS : List (List Char) :=
  ["date".data, "time".data, "status".data, "code".data, "desc".data,
   "description".data, "id".data, "number".data, "category".data, "type".data,
   "flag".data, "name".data, "office".data, "center".data, "system".data]

/-- `money_indicators` (data_processing.py:100-103). -/
def MONEY_INDICATORS : List (List Char) :=
  ["amount".data, "total".data, "cost".data, "price".data, "charge".data,
   "payment".data, "balance".data, "revenue".data, "income".data,
   "expense".data, "fee".data, "copay".data, "deductible".data]

/-- `date_indicators` (data_processing.py:111). -/
def DATE_INDICATORS : List (List Char) :=
  ["date".data, "time".data, "created".data, "updated".data, "start".data,
   "end".data, "birth".data]

/-- `is_money_column` (data_processing.py:85-105): any non-money indicator in
the lowercased name disqualifies it; otherwise any money indicator fires. -/
def is_money_column (column_name : List Char) : Bool :=
  !(NON_MONEY_INDICATORS.any (fun ind => containsCI column_name ind)) &&
    MONEY_INDICATORS.any (fun ind => containsCI column_name ind)

/-- `is_date_column` (data_processing.py:108-112). -/
def is_date_column (column_name : List Char) : Bool :=
  DATE_INDICATORS.any (fun ind => containsCI column_name ind)

/-- The SQLite column types the pipeline emits. -/
inductive SqlType
  | INTEGER
  | REAL
  | TEXT
  deriving DecidableEq

/-- A cleaned CSV row: cleaned column name to cleaned cell (`none` = null). -/
abbrev CsvRow := List (List Char × Option (List Char))

def rowLookup : CsvRow → List Char → Option (Option (List Char))
  | [], _ => none
  | p :: rest, col => if p.1 = col then some p.2 else rowLookup rest col

/-- The `values` collection of `determine_column_type`
(data_processing.py:117-120): cells present and not `None`. -/
def columnValues (sample_rows : List CsvRow) (column_name : List Char) :
    List (List Char) :=
  sample_rows.filterMap (fun row =>
    match rowLookup row column_name with
    | some (some v) => some v
    | _ => none)

/-- The numeric scan of data_processing.py:134-146: `(int_count, float_count)`
accumulated over the values, aborting with `none` (→ TEXT) at the first value
`float()` cannot parse. -/
def countNumeric : List (List Char) → Option (Nat × Nat)
  | [] => some (0, 0)
  | v :: rest =>
    match parsePyFloat v with
    | none => none
    | some q =>
      match countNumeric rest with
      | none => none
      | some (i, f) => if isIntegral q then some (i + 1, f) else some (i, f + 1)

/-- `determine_column_type` (data_processing.py:115-157): no values → TEXT;
date-named → TEXT; money-named → INTEGER; otherwise the numeric scan, with
the `total_numeric / len(values) > 0.8` test written in exact arithmetic
(equivalent here: any unparsable value already returned TEXT, so the ratio
reaching this point is always 1). -/
def determine_column_type (sample_rows : List CsvRow) (column_name : List Char) :
    SqlType :=
  let values := columnValues sample_rows column_name
  if values.length = 0 then .TEXT
  else if is_date_column column_name then .TEXT
  else if is_money_column column_name then .INTEGER
  else
    match countNumeric values with
    | none => .TEXT
    | some (i, f) =>
      if 0 < i + f ∧ 4 * values.length < 5 * (i + f) then
        if f = 0 then .INTEGER else .REAL
      else .TEXT

/-- `process_single_csv` samples the first 100 data rows for type detection
(data_processing.py:270-278). -/
def collectSampleRows (rows : List CsvRow) : List CsvRow := rows.take 100

/-- Column type as the pipeline infers it for a file's rows. -/
def inferColumnType (rows : List CsvRow) (column_name : List Char) : SqlType :=
  determine_column_type (collectSampleRows rows) column_name

/-- A value as it reaches `conn.execute(insert_sql, values)`. -/
inductive StoredValue
  | null
  | intVal (n : Int)
  | realVal (q : DecValue)
  | textVal (s : List Char)
  deriving DecidableEq

/-- Python truthiness of a cleaned cell (`None` and `''` are falsy). -/
def valueTruthy : Option (List Char) → Bool
  | some v => !v.isEmpty
  | none => false

/-- The per-value conversion of the insert loop
(data_processing.py:306-320), applied to the cleaned cell `value`. -/
def insertValue (sample_rows : List CsvRow) (new_name : List Char)
    (value : Option (List Char)) : StoredValue :=
  let col_type := determine_column_type sample_rows new_name
  if col_type = .INTEGER ∧ is_money_column new_name = true then
    match value with
    | some v =>
      if v.isEmpty then .null
      else
        match parse_money_to_cents v with
        | some n => .intVal n
        | none => .null
    | none => .null
  else if col_type = .REAL then
    match value with
    | some v =>
      if v.isEmpty then .null
      else
        match parse_decimal v with
        | some q => .realVal q
        | none => .null
    | none => .null
  else if is_date_column new_name = true ∧ valueTruthy value = true then
    match value with
    | some v =>
      match parse_date v with
      | some iso => .textVal iso
      | none => .textVal v
    | none => .null
  else
    match value with
    | some v => .textVal v
    | none => .null

/-- The claim's shape predicate for money cells: integer minor units or null. -/
def isIntOrNull : StoredValue → Bool
  | .intVal _ => true
  | .null => true
  | _ => false

/-- `deduplicate_column_names`' `seen` dict, as an association list. -/
def seenLookup : List (List Char × Nat) → List Char → Option Nat
  | [], _ => none
  | p :: rest, name => if p.1 = name then some p.2 else seenLookup rest name

def seenSet : List (List Char × Nat) → List Char → Nat → List (List Char × Nat)
  | [], name, n => [(name, n)]
  | p :: rest, name, n =>
    if p.1 = name then (p.1, n) :: rest else p :: seenSet rest name n

/-- The loop body of `deduplicate_column_names` (data_processing.py:173-190). -/
def dedupGo (seen : List (List Char × Nat)) : List (List Char) → List (List Char)
  | [] => []
  | name :: rest =>
    match seenLookup seen name with
    | some n => (name ++ '_' :: natDigits (n + 1)) :: dedupGo (seenSet seen name (n + 1)) rest
    | none => name :: dedupGo (seenSet seen name 0) rest

/-- `deduplicate_column_names` (data_processing.py:173-190). -/
def deduplicate_column_names (column_names : List (List Char)) : List (List Char) :=
  dedupGo [] column_names

/-- Occurrences of `name` in a list of names. -/
def countOcc (name : List Char) (l : List (List Char)) : Nat :=
  (l.filter (fun x => x = name)).length

/-- The deduplication rule as the spec states it: scanning left to right, the
first occurrence of a name is kept, and the k-th repeat becomes `name_k`. -/
def specRename (pre : List (List Char)) : List (List Char) → List (List Char)
  | [] => []
  | name :: rest =>
    (if countOcc name pre = 0 then name
     else name ++ '_' :: natDigits (countOcc name pre)) :: specRename (pre ++ [name]) rest

/-! ### Store-level replacement semantics -/

/-- The user tables of the SQLite store: name to row list, in creation
order. -/
abbrev Store := List (List Char × List Row)

def lookupTable : Store → List Char → Option (List Row)
  | [], _ => none
  | p :: rest, t => if p.1 = t then some p.2 else lookupTable rest t

/-- `DROP TABLE IF EXISTS t` (data_processing.py:288): remove every entry
for the name. -/
def dropTable : Store → List Char → Store
  | [], _ => []
  | p :: rest, t => if p.1 = t then dropTable rest t else p :: dropTable rest t

/-- `CREATE TABLE t (...)` followed by the insert loop
(data_processing.py:290-323): a fresh table appended to the store. -/
def createTable (s : Store) (t : List Char) (d : List Row) : Store :=
  s ++ [(t, d)]

/-- Materializing one file: drop-then-recreate for its derived name. -/
def materializeTable (s : Store) (t : List Char) (d : List Row) : Store :=
  createTable (dropTable s t) t d

/-- `clear_database` (data_processing.py:341-357) /
`clear_healthcare_database` (app.py:958-975): drop every user table. -/
def clear_database (_s : Store) : Store := []

/-- Processing a batch of files, each materialized in order; a file is its
derived (sanitized) table name paired with its converted rows. -/
def ingestBatch (s : Store) (files : List (List Char × List Row)) : Store :=
  files.foldl (fun st f => materializeTable st f.1 f.2) s

/-- `process_csv_upload` (data_processing.py:193-209): clear the store first
exactly when `clear_existing` was requested, then process the batch. -/
def process_csv_upload (s : Store) (clear_existing : Bool)
    (files : List (List Char × List Row)) : Store :=
  ingestBatch (if clear_existing then clear_database s else s) files

/-- `process_zip_upload` (app.py:977-997): the app-level upload path clears
the whole store unconditionally before processing any file. -/
def process_zip_upload (s : Store) (files : List (List Char × List Row)) : Store :=
  ingestBatch (clear_database s) files

/-! ### Spec-side comparison definition and concrete inputs -/

/-- The sampled-numeric rule exactly as the spec words it (for comparison
with `determine_column_type`): over up to the first 10 data rows, strip
currency symbols and thousands separators from the sampled non-empty values,
and if at least 80% parse as numbers choose INTEGER when none has a
fractional part and REAL otherwise; TEXT in all other cases. -/
def specSampledNumericType (sample_rows : List CsvRow) (column_name : List Char) :
    SqlType :=
  let values := columnValues (sample_rows.take 10) column_name
  let parsed :=
    (values.map (fun v => v.filter (fun c => !(c = '$' || c = ',')))).filterMap parsePyFloat
  if 0 < values.length ∧ 4 * values.length ≤ 5 * parsed.length then
    if parsed.all isIntegral then .INTEGER else .REAL
  else .TEXT

/-- Extend the last segment of a split: the shape `splitSemi` takes on an
appended semicolon-free suffix. -/
def extendLast (t : List Char) : List (List Char) → List (List Char)
  | [] => []
  | [s] => [s ++ t]
  | s :: ss => s :: extendLast t ss

/-- The single-quote character. -/
def squote : Char := Char.ofNat 39

/-- `SELECT 'DROP'`: the forbidden keyword appears only inside a string
literal. -/
def stringLiteralDropQuery : List Char :=
  ['S', 'E', 'L', 'E', 'C', 'T', ' ', squote, 'D', 'R', 'O', 'P', squote]

/-- A SELECT whose quoted literal is: dash, block comment, dash, `dropx`.
Comment stripping splices the literal into `--dropx`, so the
`--.*?(DROP|...)` dangerous pattern fires even though no forbidden keyword
occurs as a whole word and the query otherwise looks like a plain SELECT. -/
def commentSplicedDropQuery : List Char :=
  ['S', 'E', 'L', 'E', 'C', 'T', ' ', squote, '-', '/', '*', 'c', '*', '/',
   '-', 'd', 'r', 'o', 'p', 'x', squote]

def selectOneQuery : List Char := ['S', 'E', 'L', 'E', 'C', 'T', ' ', '1']

def selectTwoQuery : List Char := ['S', 'E', 'L', 'E', 'C', 'T', ' ', '2']

/-- An engine whose store answers every query with 25 empty rows. -/
def sampleEngine : Engine := ⟨fun _ => .ok (List.replicate 25 ([] : Row))⟩

/-- A raw engine diagnostic matching none of the three rewritten patterns. -/
def rawEngineDiag : List Char := "no such function: badfn".data

def failingEngine : Engine := ⟨fun _ => .error rawEngineDiag⟩

def missingTableDiag : List Char := "no such table: patients".data

def missingTableEngine : Engine := ⟨fun _ => .error missingTableDiag⟩

def demoTableName : List Char := "patients".data

def demoRows : List Row := [[['P', '1']]]

def otherTableName : List Char := "invoices".data

/-- A column name that triggers neither the money nor the date name rule. -/
def valCol : List Char := ['v', 'a', 'l']

def mkValRow (s : List Char) : CsvRow := [(valCol, some s)]

/-- Ten sampled values, nine of them numeric: 90% ≥ 80%, yet the code
returns TEXT at the first unparsable value. -/
def ninetyPercentRows : List CsvRow :=
  [mkValRow ['1'], mkValRow ['2'], mkValRow ['3'], mkValRow ['4'],
   mkValRow ['5'], mkValRow ['6'], mkValRow ['7'], mkValRow ['8'],
   mkValRow ['9'], mkValRow ['x']]

/-- Eleven rows whose 11th value is unparsable: a 10-row sample would be all
numeric, but the pipeline samples up to 100 rows. -/
def elevenRows : List CsvRow :=
  List.replicate 10 (mkValRow ['1']) ++ [mkValRow ['x']]

/-- Values with a thousands separator: numeric after stripping `,` per the
spec, unparsable for `float()` in this code path. -/
def commaRows : List CsvRow :=
  [mkValRow ['1', ',', '0', '0', '0'], mkValRow ['2'], mkValRow ['3'],
   mkValRow ['4'], mkValRow ['5']]

/-- A name both money-like (`charge`) and date-like (`start`): the code
checks the date rule first. -/
def startChargeCol : List Char := "start_charge".data

def startChargeRows : List CsvRow := [[(startChargeCol, some "$5.00".data)]]

def chargeCol : List Char := "charge".data

def chargeRows : List CsvRow := [[(chargeCol, some ['1'])]]

def numericSampleRows : List CsvRow := [mkValRow ['1'], mkValRow ['2', '.', '5']]

end SqlQuiz




namespace SqlQuiz

/-! ## Supporting lemmas -/

theorem splitSemi_ne_nil (q : List Char) : splitSemi q ≠ [] := by
  cases q with
  | nil => simp [splitSemi]
  | cons c rest =>
    simp only [splitSemi]
    split
    · simp
    · split <;> simp

theorem splitSemi_cons_semi (q : List Char) :
    splitSemi (';' :: q) = [] :: splitSemi q := by
  simp [splitSemi]

theorem splitSemi_cons_of_ne {c : Char} (hc : ¬(c = ';')) {q : List Char}
    {s : List Char} {ss : List (List Char)} (hss : splitSemi q = s :: ss) :
    splitSemi (c :: q) = (c :: s) :: ss := by
  simp [splitSemi, hc, hss]

theorem isDenied_iff (v : Verdict) : isDenied v = true ↔ v ≠ Verdict.allowed := by
  cases v <;> simp [isDenied]

theorem nb_cons_semi (q : List Char) :
    nonBlankStatements (';' :: q) = nonBlankStatements q := by
  unfold nonBlankStatements
  rw [splitSemi_cons_semi, List.filter_cons]
  simp [isBlank]

theorem nb_cons_space {c : Char} (hc : pyIsSpace c = true) (q : List Char) :
    nonBlankStatements (c :: q) = nonBlankStatements q := by
  have hcs : ¬(c = ';') := by
    intro h
    subst h
    exact absurd hc (by decide)
  obtain ⟨s, ss, hss⟩ := List.exists_cons_of_ne_nil (splitSemi_ne_nil q)
  have hb : isBlank (c :: s) = isBlank s := by simp [isBlank, hc]
  unfold nonBlankStatements
  rw [splitSemi_cons_of_ne hcs hss, hss, List.filter_cons, List.filter_cons, hb]
  cases (!isBlank s) <;> simp

theorem nb_dropWhile (q : List Char) :
    nonBlankStatements (q.dropWhile pyIsSpace) = nonBlankStatements q := by
  induction q with
  | nil => rfl
  | cons c rest ih =>
    rw [List.dropWhile_cons]
    split
    · rename_i hc
      rw [ih, nb_cons_space hc]
    · rfl

theorem extendLast_cons {l : List (List Char)} (h : l ≠ []) (t x : List Char) :
    extendLast t (x :: l) = x :: extendLast t l := by
  cases l with
  | nil => exact absurd rfl h
  | cons y ys => rfl

theorem splitSemi_of_no_semi {t : List Char} (h : ∀ c ∈ t, c ≠ ';') :
    splitSemi t = [t] := by
  induction t with
  | nil => rfl
  | cons c r ih =>
    have hc : ¬(c = ';') := h c (List.mem_cons_self c r)
    have hr := ih (fun d hd => h d (List.mem_cons_of_mem c hd))
    simp [splitSemi, hc, hr]

theorem splitSemi_append {t : List Char} (h : ∀ c ∈ t, c ≠ ';') :
    ∀ q : List Char, splitSemi (q ++ t) = extendLast t (splitSemi q) := by
  intro q
  induction q with
  | nil =>
    rw [List.nil_append, splitSemi_of_no_semi h]
    rfl
  | cons c q' ih =>
    by_cases hc : c = ';'
    · subst hc
      rw [List.cons_append, splitSemi_cons_semi, splitSemi_cons_semi, ih,
        extendLast_cons (splitSemi_ne_nil q')]
    · obtain ⟨s, ss, hss⟩ := List.exists_cons_of_ne_nil (splitSemi_ne_nil q')
      cases ss with
      | nil =>
        have hq : splitSemi (q' ++ t) = (s ++ t) :: [] := by
          rw [ih, hss]
          rfl
        rw [List.cons_append, splitSemi_cons_of_ne hc hq, splitSemi_cons_of_ne hc hss]
        simp [extendLast]
      | cons s2 ss2 =>
        have hq : splitSemi (q' ++ t) = s :: extendLast t (s2 :: ss2) := by
          rw [ih, hss, extendLast_cons (by simp)]
        rw [List.cons_append, splitSemi_cons_of_ne hc hq, splitSemi_cons_of_ne hc hss,
          @extendLast_cons (s2 :: ss2) (by simp) t (c :: s)]

theorem filter_extendLast {t : List Char} (ht : isBlank t = true) :
    ∀ l : List (List Char),
      ((extendLast t l).filter (fun s => !isBlank s)).length =
        (l.filter (fun s => !isBlank s)).length := by
  have ht' : t.all pyIsSpace = true := ht
  intro l
  induction l with
  | nil => rfl
  | cons s l ih =>
    cases l with
    | nil =>
      have hb : isBlank (s ++ t) = isBlank s := by
        simp only [isBlank, List.all_append]
        rw [ht', Bool.and_true]
      show ((extendLast t [s]).filter (fun s => !isBlank s)).length = _
      have he : extendLast t [s] = [s ++ t] := rfl
      rw [he, List.filter_cons, List.filter_cons, hb]
      cases (!isBlank s) <;> simp
    | cons s2 l2 =>
      rw [extendLast_cons (by simp), List.filter_cons, List.filter_cons]
      cases (!isBlank s) <;> simp [ih]

theorem nb_append_blank {t : List Char} (ht : t.all pyIsSpace = true)
    (q : List Char) : nonBlankStatements (q ++ t) = nonBlankStatements q := by
  have hns : ∀ c ∈ t, c ≠ ';' := by
    intro c hc h
    subst h
    have := List.all_eq_true.mp ht _ hc
    exact absurd this (by decide)
  unfold nonBlankStatements
  rw [splitSemi_append hns, filter_extendLast ht]

theorem nb_pyStrip (q : List Char) :
    nonBlankStatements (pyStrip q) = nonBlankStatements q := by
  have htw : ∀ l : List Char, (l.takeWhile pyIsSpace).all pyIsSpace = true := by
    intro l
    induction l with
    | nil => rfl
    | cons c r ih =>
      rw [List.takeWhile_cons]
      split
      · rename_i h
        simp [h, ih]
      · rfl
  set x := q.dropWhile pyIsSpace with hx
  have hdecomp :
      x = (x.reverse.dropWhile pyIsSpace).reverse ++ (x.reverse.takeWhile pyIsSpace).reverse := by
    have h1 : x.reverse.takeWhile pyIsSpace ++ x.reverse.dropWhile pyIsSpace = x.reverse :=
      List.takeWhile_append_dropWhile pyIsSpace x.reverse
    calc x = x.reverse.reverse := (List.reverse_reverse x).symm
    _ = (x.reverse.takeWhile pyIsSpace ++ x.reverse.dropWhile pyIsSpace).reverse := by rw [h1]
    _ = (x.reverse.dropWhile pyIsSpace).reverse ++ (x.reverse.takeWhile pyIsSpace).reverse := by
        rw [List.reverse_append]
  have hta : ((x.reverse.takeWhile pyIsSpace).reverse).all pyIsSpace = true := by
    rw [List.all_reverse]
    exact htw _
  have hmain :
      nonBlankStatements x = nonBlankStatements ((x.reverse.dropWhile pyIsSpace).reverse) := by
    conv_lhs => rw [hdecomp]
    exact nb_append_blank hta _
  calc nonBlankStatements (pyStrip q)
      = nonBlankStatements ((x.reverse.dropWhile pyIsSpace).reverse) := rfl
    _ = nonBlankStatements x := hmain.symm
    _ = nonBlankStatements q := nb_dropWhile q

/-- The validator returns `allowed` exactly when the stripped query is
non-empty, no forbidden keyword occurs as a whole word in the analysis copy,
no dangerous pattern matches it, the stripped original splits into at most
one non-blank `;`-segment, and the analysis copy starts with SELECT. -/
theorem validate_query_eq_allowed (q : List Char) :
    validate_query q = .allowed ↔
      pyStrip q ≠ [] ∧
      (DANGEROUS_KEYWORDS.any fun kw =>
        containsKeywordWord (remove_sql_comments (pyStrip q)) kw) = false ∧
      matchesDangerousPatterns (remove_sql_comments (pyStrip q)) = false ∧
      nonBlankStatements (pyStrip q) ≤ 1 ∧
      startsWithSelect (remove_sql_comments (pyStrip q)) = true := by
  unfold validate_query
  split_ifs with h1 h2 h3 h4 h5 <;> simp_all

/-! ## Claim theorems -/

/-- C1: for every query text whose comment-stripped analysis copy contains a
keyword of the fixed dangerous set as a whole word, case-insensitively, the
validator returns denied — string literals included, since the analysis copy
keeps them (see the witness at a query whose only DROP is inside quotes). -/
theorem validator_rejects_forbidden_keywords (q : List Char)
    (h : (DANGEROUS_KEYWORDS.any fun kw =>
      containsKeywordWord (remove_sql_comments (pyStrip q)) kw) = true) :
    isDenied (validate_query q) = true := by
  have hne : pyStrip q ≠ [] := by
    intro he
    rw [he] at h
    exact absurd h (by decide)
  unfold validate_query
  rw [if_neg hne, if_pos h]
  decide

theorem validator_rejects_forbidden_keywords_witness :
    (DANGEROUS_KEYWORDS.any fun kw =>
      containsKeywordWord (remove_sql_comments (pyStrip stringLiteralDropQuery)) kw) = true ∧
    isDenied (validate_query stringLiteralDropQuery) = true :=
  ⟨by decide, validator_rejects_forbidden_keywords stringLiteralDropQuery (by decide)⟩

/-- C5: for every query text (comments included) whose split on `;` yields
more than one non-blank segment, the validator returns denied.  The code
splits the stripped text; `nb_pyStrip` transfers the hypothesis from the
original text. -/
theorem validator_rejects_multiple_statements (q : List Char)
    (h : 1 < nonBlankStatements q) : isDenied (validate_query q) = true := by
  rw [isDenied_iff]
  intro hv
  have hall := (validate_query_eq_allowed q).mp hv
  have hle := hall.2.2.2.1
  rw [nb_pyStrip] at hle
  omega

theorem validator_rejects_multiple_statements_witness :
    1 < nonBlankStatements "SELECT 1; SELECT 2".data ∧
    isDenied (validate_query "SELECT 1; SELECT 2".data) = true :=
  ⟨by decide, validator_rejects_multiple_statements _ (by decide)⟩

/-- C6 counterexample: a query that passes the keyword check and the
single-statement check and whose analysis copy starts with SELECT, yet is
denied — comment stripping splices `--dropx` out of a string literal and the
`DANGEROUS_PATTERNS` check (omitted by the claim) fires. -/
theorem validator_pattern_check_counterexample :
    (DANGEROUS_KEYWORDS.any fun kw =>
      containsKeywordWord (remove_sql_comments (pyStrip commentSplicedDropQuery)) kw) = false ∧
    nonBlankStatements commentSplicedDropQuery ≤ 1 ∧
    startsWithSelect (remove_sql_comments (pyStrip commentSplicedDropQuery)) = true ∧
    validate_query commentSplicedDropQuery ≠ .allowed := by
  refine ⟨by decide, by decide, by decide, ?_⟩
  decide

/-- C6 (amended): every query that passes the keyword check, the
dangerous-pattern check and the single-statement check, and whose analysis
copy begins with SELECT, is allowed; in particular no LIMIT clause is
required, and the page the executor returns for it holds at most
`rows_per_page` rows. -/
theorem validator_allows_select_queries (q : List Char)
    (hk : (DANGEROUS_KEYWORDS.any fun kw =>
      containsKeywordWord (remove_sql_comments (pyStrip q)) kw) = false)
    (hp : matchesDangerousPatterns (remove_sql_comments (pyStrip q)) = false)
    (hs : nonBlankStatements (pyStrip q) ≤ 1)
    (hsel : startsWithSelect (remove_sql_comments (pyStrip q)) = true) :
    validate_query q = .allowed ∧
    ∀ (e : Engine) (rows : List Row) (page size : Nat), e.run q = .ok rows →
      ∃ p, execute_safe_query e q page size = .success p ∧ p.data.length ≤ size := by
  have hne : pyStrip q ≠ [] := by
    intro he
    rw [he] at hsel
    exact absurd hsel (by decide)
  have hv : validate_query q = .allowed :=
    (validate_query_eq_allowed q).mpr ⟨hne, hk, hp, hs, hsel⟩
  refine ⟨hv, ?_⟩
  intro e rows page size hr
  refine ⟨⟨(rows.drop ((page - 1) * size)).take size, rows.length, page, size⟩, ?_, ?_⟩
  · unfold execute_safe_query
    rw [hv, hr]
  · show ((rows.drop ((page - 1) * size)).take size).length ≤ size
    rw [List.length_take]
    exact Nat.min_le_left _ _

theorem validator_allows_select_queries_witness :
    ((DANGEROUS_KEYWORDS.any fun kw =>
      containsKeywordWord (remove_sql_comments (pyStrip selectTwoQuery)) kw) = false ∧
    matchesDangerousPatterns (remove_sql_comments (pyStrip selectTwoQuery)) = false ∧
    nonBlankStatements (pyStrip selectTwoQuery) ≤ 1 ∧
    startsWithSelect (remove_sql_comments (pyStrip selectTwoQuery)) = true) ∧
    (validate_query selectTwoQuery = .allowed ∧
    ∀ (e : Engine) (rows : List Row) (page size : Nat), e.run selectTwoQuery = .ok rows →
      ∃ p, execute_safe_query e selectTwoQuery page size = .success p ∧
        p.data.length ≤ size) :=
  ⟨⟨by decide, by decide, by decide, by decide⟩,
    validator_allows_select_queries selectTwoQuery
      (by decide) (by decide) (by decide) (by decide)⟩

/-- C2: for every allowed query the executor reports `total_count` as the
size of the full result of the unmodified text (the COUNT(*) wrapper) for
every page, and pages the rows with `LIMIT rows_per_page OFFSET
(page-1)*rows_per_page`; a 25-row result yields exactly 10 rows on page 2
and 5 rows on page 3 with `total_count = 25` both times. -/
theorem executor_pagination_counts (e : Engine) (q : List Char) (rows : List Row)
    (hv : validate_query q = .allowed) (hr : e.run q = .ok rows)
    (h25 : rows.length = 25) :
    (∀ page size : Nat, totalCountOf (execute_safe_query e q page size) = rows.length) ∧
    (∀ page size : Nat, ∃ p, execute_safe_query e q page size = .success p ∧
      p.data = (rows.drop ((page - 1) * size)).take size) ∧
    (∃ p, execute_safe_query e q 2 10 = .success p ∧
      p.total_count = 25 ∧ p.data.length = 10) ∧
    (∃ p, execute_safe_query e q 3 10 = .success p ∧
      p.total_count = 25 ∧ p.data.length = 5) := by
  have hexec : ∀ page size : Nat, execute_safe_query e q page size =
      .success { data := (rows.drop ((page - 1) * size)).take size,
                 total_count := rows.length, page := page, rows_per_page := size } := by
    intro page size
    unfold execute_safe_query
    rw [hv, hr]
  refine ⟨fun page size => ?_, fun page size => ⟨_, hexec page size, rfl⟩, ?_, ?_⟩
  · rw [hexec page size]
    rfl
  · refine ⟨_, hexec 2 10, h25, ?_⟩
    simp [List.length_take, List.length_drop, h25]
  · refine ⟨_, hexec 3 10, h25, ?_⟩
    simp [List.length_take, List.length_drop, h25]

theorem executor_pagination_counts_witness :
    (validate_query selectOneQuery = .allowed ∧
      sampleEngine.run selectOneQuery = .ok (List.replicate 25 ([] : Row)) ∧
      (List.replicate 25 ([] : Row)).length = 25) ∧
    ((∀ page size : Nat, totalCountOf
        (execute_safe_query sampleEngine selectOneQuery page size) =
        (List.replicate 25 ([] : Row)).length) ∧
      (∀ page size : Nat, ∃ p,
        execute_safe_query sampleEngine selectOneQuery page size = .success p ∧
        p.data = ((List.replicate 25 ([] : Row)).drop ((page - 1) * size)).take size) ∧
      (∃ p, execute_safe_query sampleEngine selectOneQuery 2 10 = .success p ∧
        p.total_count = 25 ∧ p.data.length = 10) ∧
      (∃ p, execute_safe_query sampleEngine selectOneQuery 3 10 = .success p ∧
        p.total_count = 25 ∧ p.data.length = 5)) :=
  ⟨⟨by decide, rfl, by decide⟩,
    executor_pagination_counts sampleEngine selectOneQuery _ (by decide) rfl (by decide)⟩

/-- C3 counterexample: an engine failure whose message matches none of the
three recognized patterns is returned verbatim — the raw internal diagnostic
leaks, and it is not one of the fixed friendly messages. -/
theorem executor_error_leak_counterexample :
    execute_safe_query failingEngine selectOneQuery 1 1000 = .failure rawEngineDiag ∧
    rawEngineDiag ≠ tableNotFoundMsg ∧
    rawEngineDiag ≠ columnNotFoundMsg ∧
    rawEngineDiag ≠ syntaxErrorMsg := by
  refine ⟨?_, by decide, by decide, by decide⟩
  decide

/-- C3 (amended): on engine failure the executor reports `total_count = 0`
and passes the message through `sanitize_error_message`: the three recognized
patterns are replaced by fixed friendly messages, and any other engine
message is returned verbatim. -/
theorem executor_error_mapping (e : Engine) (q msg : List Char) (page size : Nat)
    (hv : validate_query q = .allowed) (hr : e.run q = .error msg) :
    execute_safe_query e q page size = .failure (sanitize_error_message msg) ∧
    totalCountOf (execute_safe_query e q page size) = 0 ∧
    (containsCI msg "no such table".data = true →
      sanitize_error_message msg = tableNotFoundMsg) ∧
    (containsCI msg "no such table".data = false →
      containsCI msg "no such column".data = true →
      sanitize_error_message msg = columnNotFoundMsg) ∧
    (containsCI msg "no such table".data = false →
      containsCI msg "no such column".data = false →
      containsCI msg "syntax error".data = true →
      sanitize_error_message msg = syntaxErrorMsg) ∧
    (containsCI msg "no such table".data = false →
      containsCI msg "no such column".data = false →
      containsCI msg "syntax error".data = false →
      sanitize_error_message msg = msg) := by
  have hfail : execute_safe_query e q page size = .failure (sanitize_error_message msg) := by
    unfold execute_safe_query
    rw [hv, hr]
  refine ⟨hfail, by rw [hfail]; rfl, ?_, ?_, ?_, ?_⟩
  · intro h1
    unfold sanitize_error_message
    rw [if_pos h1]
  · intro h1 h2
    unfold sanitize_error_message
    rw [if_neg (by simp [h1]), if_pos h2]
  · intro h1 h2 h3
    unfold sanitize_error_message
    rw [if_neg (by simp [h1]), if_neg (by simp [h2]), if_pos h3]
  · intro h1 h2 h3
    unfold sanitize_error_message
    rw [if_neg (by simp [h1]), if_neg (by simp [h2]), if_neg (by simp [h3])]

theorem executor_error_mapping_witness :
    (validate_query selectOneQuery = .allowed ∧
      missingTableEngine.run selectOneQuery = .error missingTableDiag) ∧
    (execute_safe_query missingTableEngine selectOneQuery 1 1000 =
      .failure (sanitize_error_message missingTableDiag) ∧
    totalCountOf (execute_safe_query missingTableEngine selectOneQuery 1 1000) = 0 ∧
    (containsCI missingTableDiag "no such table".data = true →
      sanitize_error_message missingTableDiag = tableNotFoundMsg) ∧
    (containsCI missingTableDiag "no such table".data = false →
      containsCI missingTableDiag "no such column".data = true →
      sanitize_error_message missingTableDiag = columnNotFoundMsg) ∧
    (containsCI missingTableDiag "no such table".data = false →
      containsCI missingTableDiag "no such column".data = false →
      containsCI missingTableDiag "syntax error".data = true →
      sanitize_error_message missingTableDiag = syntaxErrorMsg) ∧
    (containsCI missingTableDiag "no such table".data = false →
      containsCI missingTableDiag "no such column".data = false →
      containsCI missingTableDiag "syntax error".data = false →
      sanitize_error_message missingTableDiag = missingTableDiag)) :=
  ⟨⟨by decide, rfl⟩,
    executor_error_mapping missingTableEngine selectOneQuery missingTableDiag 1 1000
      (by decide) rfl⟩

/-! ## Store replacement (C4) -/

theorem lookupTable_dropTable_self (s : Store) (t : List Char) :
    lookupTable (dropTable s t) t = none := by
  induction s with
  | nil => rfl
  | cons p rest ih =>
    rw [dropTable]
    by_cases hp : p.1 = t
    · rw [if_pos hp]
      exact ih
    · rw [if_neg hp, lookupTable, if_neg hp]
      exact ih

theorem lookupTable_dropTable_other (s : Store) {t t' : List Char} (h : t' ≠ t) :
    lookupTable (dropTable s t) t' = lookupTable s t' := by
  induction s with
  | nil => rfl
  | cons p rest ih =>
    rw [dropTable]
    by_cases hp : p.1 = t
    · have hp' : ¬(p.1 = t') := by rw [hp]; exact fun he => h he.symm
      rw [if_pos hp, lookupTable, if_neg hp']
      exact ih
    · rw [if_neg hp, lookupTable, lookupTable]
      by_cases hq : p.1 = t'
      · rw [if_pos hq, if_pos hq]
      · rw [if_neg hq, if_neg hq]
        exact ih

theorem lookupTable_append_self {s : Store} {t : List Char}
    (h : lookupTable s t = none) (d : List Row) :
    lookupTable (s ++ [(t, d)]) t = some d := by
  induction s with
  | nil => simp [lookupTable]
  | cons p rest ih =>
    rw [lookupTable] at h
    rw [List.cons_append, lookupTable]
    by_cases hp : p.1 = t
    · rw [if_pos hp] at h
      exact absurd h (by simp)
    · rw [if_neg hp] at h ⊢
      exact ih h

theorem lookupTable_append_other (s : Store) {t t' : List Char} (h : t' ≠ t)
    (d : List Row) :
    lookupTable (s ++ [(t, d)]) t' = lookupTable s t' := by
  induction s with
  | nil =>
    have ht : ¬(t = t') := fun he => h he.symm
    simp [lookupTable, ht]
  | cons p rest ih =>
    rw [List.cons_append, lookupTable, lookupTable]
    by_cases hp : p.1 = t'
    · rw [if_pos hp, if_pos hp]
    · rw [if_neg hp, if_neg hp]
      exact ih

/-- C4 counterexample: the app-level ZIP upload path drops a table that the
batch does not even touch, with no caller request for clearing — the store
starts with a `patients` table, a batch replacing only `invoices` is
processed, and `patients` is gone. -/
theorem zip_upload_unconditional_clear_counterexample :
    lookupTable [(demoTableName, demoRows)] demoTableName = some demoRows ∧
    lookupTable (process_zip_upload [(demoTableName, demoRows)]
      [(otherTableName, demoRows)]) demoTableName = none ∧
    demoTableName ≠ otherTableName := by
  refine ⟨by decide, ?_, by decide⟩
  decide

/-- C4 (amended): materializing a file drop-then-recreates the table for its
derived name (no earlier row survives) and leaves every other table
unchanged; the utils pipeline (`process_csv_upload`) clears the whole store
first exactly when `clear_existing` was requested, before any file of the
batch; the app-level ZIP path (`process_zip_upload`) instead clears
unconditionally before any file. -/
theorem ingestion_replacement_semantics (s : Store) (t t' : List Char)
    (d : List Row) (files : List (List Char × List Row)) (h : t' ≠ t) :
    lookupTable (materializeTable s t d) t = some d ∧
    lookupTable (materializeTable s t d) t' = lookupTable s t' ∧
    process_csv_upload s true files = ingestBatch (clear_database s) files ∧
    process_csv_upload s false files = ingestBatch s files ∧
    process_zip_upload s files = ingestBatch (clear_database s) files := by
  refine ⟨?_, ?_, rfl, rfl, rfl⟩
  · exact lookupTable_append_self (lookupTable_dropTable_self s t) d
  · rw [materializeTable, createTable, lookupTable_append_other _ h,
      lookupTable_dropTable_other _ h]

theorem ingestion_replacement_semantics_witness :
    demoTableName ≠ otherTableName ∧
    (lookupTable (materializeTable [(otherTableName, demoRows)] otherTableName [])
        otherTableName = some [] ∧
    lookupTable (materializeTable [(otherTableName, demoRows)] otherTableName [])
        demoTableName = lookupTable [(otherTableName, demoRows)] demoTableName ∧
    process_csv_upload [(otherTableName, demoRows)] true [] =
      ingestBatch (clear_database [(otherTableName, demoRows)]) [] ∧
    process_csv_upload [(otherTableName, demoRows)] false [] =
      ingestBatch [(otherTableName, demoRows)] [] ∧
    process_zip_upload [(otherTableName, demoRows)] [] =
      ingestBatch (clear_database [(otherTableName, demoRows)]) []) :=
  ⟨by decide,
    ingestion_replacement_semantics [(otherTableName, demoRows)] otherTableName
      demoTableName [] [] (by decide)⟩

/-! ## Column type inference (C7) -/

theorem countNumeric_sum :
    ∀ (vs : List (List Char)) (i f : Nat),
      countNumeric vs = some (i, f) → i + f = vs.length := by
  intro vs
  induction vs with
  | nil =>
    intro i f h
    rw [countNumeric] at h
    have h' : (0, 0) = (i, f) := Option.some.inj h
    have h1 : 0 = i := congrArg Prod.fst h'
    have h2 : 0 = f := congrArg Prod.snd h'
    simp only [List.length_nil]
    omega
  | cons v rest ih =>
    intro i f h
    rw [countNumeric] at h
    cases hp : parsePyFloat v with
    | none => rw [hp] at h; simp at h
    | some q =>
      rw [hp] at h
      cases hr : countNumeric rest with
      | none => rw [hr] at h; simp at h
      | some p =>
        obtain ⟨i0, f0⟩ := p
        rw [hr] at h
        have hsum := ih i0 f0 hr
        by_cases hq : isIntegral q = true
        · simp [hq] at h
          obtain ⟨h1, h2⟩ := h
          simp only [List.length_cons]
          omega
        · simp [hq] at h
          obtain ⟨h1, h2⟩ := h
          simp only [List.length_cons]
          omega

/-- C7 counterexample: three columns on which `determine_column_type` and
the sampled-numeric rule as the claim words it disagree — a 90%-numeric
sample (the code aborts to TEXT at the first unparsable value), an 11-row
file whose 11th row is unparsable (the code samples 100 rows, not 10), and
values with a thousands separator (this code path never strips `,`). -/
theorem column_type_threshold_counterexample :
    is_money_column valCol = false ∧
    is_date_column valCol = false ∧
    inferColumnType ninetyPercentRows valCol = .TEXT ∧
    specSampledNumericType ninetyPercentRows valCol = .INTEGER ∧
    inferColumnType elevenRows valCol = .TEXT ∧
    specSampledNumericType elevenRows valCol = .INTEGER ∧
    inferColumnType commaRows valCol = .TEXT ∧
    specSampledNumericType commaRows valCol = .INTEGER := by
  refine ⟨by decide, by decide, by decide, by decide, ?_, ?_, by decide, by decide⟩
  · decide
  · decide

/-- C7 (amended): for a column not classified by the money-name or date-name
rules, the type is decided over the first 100 sampled data rows: TEXT when
no non-null value was sampled or when any sampled value fails to parse as a
number (no currency-symbol or separator stripping happens here), otherwise
INTEGER when no parsed value has a fractional part and REAL when one does. -/
theorem column_type_inference_rule (rows : List CsvRow) (col : List Char)
    (hd : is_date_column col = false) (hm : is_money_column col = false) :
    (columnValues (collectSampleRows rows) col = [] →
      inferColumnType rows col = .TEXT) ∧
    (countNumeric (columnValues (collectSampleRows rows) col) = none →
      inferColumnType rows col = .TEXT) ∧
    (∀ i f, countNumeric (columnValues (collectSampleRows rows) col) = some (i, f) →
      0 < i + f →
      inferColumnType rows col = if f = 0 then SqlType.INTEGER else SqlType.REAL) := by
  refine ⟨?_, ?_, ?_⟩
  · intro hnil
    unfold inferColumnType determine_column_type
    rw [hnil]
    rfl
  · intro hnone
    unfold inferColumnType determine_column_type
    simp only []
    by_cases hnil : (columnValues (collectSampleRows rows) col).length = 0
    · rw [if_pos hnil]
    · rw [if_neg hnil, if_neg (by simp [hd]), if_neg (by simp [hm]), hnone]
  · intro i f hsome hpos
    have hlen := countNumeric_sum _ _ _ hsome
    have hnil : ¬(columnValues (collectSampleRows rows) col).length = 0 := by omega
    unfold inferColumnType determine_column_type
    simp only []
    rw [if_neg hnil, if_neg (by simp [hd]), if_neg (by simp [hm]), hsome]
    have hcond : 0 < i + f ∧
        4 * (columnValues (collectSampleRows rows) col).length < 5 * (i + f) := by
      constructor
      · exact hpos
      · omega
    show (if 0 < i + f ∧
        4 * (columnValues (collectSampleRows rows) col).length < 5 * (i + f) then
        if f = 0 then SqlType.INTEGER else SqlType.REAL
      else SqlType.TEXT) = _
    rw [if_pos hcond]

theorem column_type_inference_rule_witness :
    (is_date_column valCol = false ∧ is_money_column valCol = false) ∧
    ((columnValues (collectSampleRows numericSampleRows) valCol = [] →
      inferColumnType numericSampleRows valCol = .TEXT) ∧
    (countNumeric (columnValues (collectSampleRows numericSampleRows) valCol) = none →
      inferColumnType numericSampleRows valCol = .TEXT) ∧
    (∀ i f, countNumeric (columnValues (collectSampleRows numericSampleRows) valCol) =
        some (i, f) →
      0 < i + f →
      inferColumnType numericSampleRows valCol =
        if f = 0 then SqlType.INTEGER else SqlType.REAL)) :=
  ⟨⟨by decide, by decide⟩,
    column_type_inference_rule numericSampleRows valCol (by decide) (by decide)⟩

/-! ## Money columns (C8) -/

/-- C8 counterexample: `start_charge` is money-named, yet — because the code
checks the date-name rule before the money-name rule — its column is typed
TEXT and the raw string `$5.00` is stored, neither integer cents nor null. -/
theorem money_column_text_storage_counterexample :
    is_money_column startChargeCol = true ∧
    is_date_column startChargeCol = true ∧
    insertValue startChargeRows startChargeCol (some "$5.00".data) =
      .textVal "$5.00".data ∧
    isIntOrNull (insertValue startChargeRows startChargeCol (some "$5.00".data)) =
      false := by
  refine ⟨by decide, by decide, ?_, ?_⟩ <;> decide

/-- C8 (amended): for a column classified INTEGER by the money rule
(money-named, not date-named, at least one non-null sampled value) every
stored value is integer cents or null, obtained by `parse_money_to_cents`:
strip `$` and `,`, parse as a decimal, scale by 100, round half-to-even;
`$1,234.56` stores as 123456, unparsable money is null, and display divides
by 100 so 123456 renders as 1234.56. -/
theorem money_parsing_roundtrip (sample_rows : List CsvRow) (col : List Char)
    (value : Option (List Char))
    (hm : is_money_column col = true) (hd : is_date_column col = false)
    (hne : columnValues sample_rows col ≠ []) :
    determine_column_type sample_rows col = SqlType.INTEGER ∧
    isIntOrNull (insertValue sample_rows col value) = true ∧
    (∀ v, value = some v → ¬v.isEmpty →
      insertValue sample_rows col value =
        (match parse_money_to_cents v with
         | some n => StoredValue.intVal n
         | none => StoredValue.null)) ∧
    parse_money_to_cents "$1,234.56".data = some 123456 ∧
    format_cents_to_dollars (some 123456) = some ⟨123456, 2⟩ := by
  have hlen : ¬(columnValues sample_rows col).length = 0 := by
    simpa [List.length_eq_zero] using hne
  have htype : determine_column_type sample_rows col = SqlType.INTEGER := by
    unfold determine_column_type
    rw [if_neg hlen, if_neg (by simp [hd]), if_pos hm]
  refine ⟨htype, ?_, ?_, by decide, rfl⟩
  · cases value with
    | none => simp [insertValue, htype, hm, isIntOrNull]
    | some v =>
      by_cases hv : v.isEmpty
      · simp [insertValue, htype, hm, hv, isIntOrNull]
      · cases hpm : parse_money_to_cents v with
        | none => simp [insertValue, htype, hm, hv, hpm, isIntOrNull]
        | some n => simp [insertValue, htype, hm, hv, hpm, isIntOrNull]
  · intro v hvv hv
    subst hvv
    cases hpm : parse_money_to_cents v with
    | none => simp [insertValue, htype, hm, hv, hpm]
    | some n => simp [insertValue, htype, hm, hv, hpm]

theorem money_parsing_roundtrip_witness :
    (is_money_column chargeCol = true ∧ is_date_column chargeCol = false ∧
      columnValues chargeRows chargeCol ≠ []) ∧
    (determine_column_type chargeRows chargeCol = SqlType.INTEGER ∧
    isIntOrNull (insertValue chargeRows chargeCol (some "$2.00".data)) = true ∧
    (∀ v, some "$2.00".data = some v → ¬v.isEmpty →
      insertValue chargeRows chargeCol (some "$2.00".data) =
        (match parse_money_to_cents v with
         | some n => StoredValue.intVal n
         | none => StoredValue.null)) ∧
    parse_money_to_cents "$1,234.56".data = some 123456 ∧
    format_cents_to_dollars (some 123456) = some ⟨123456, 2⟩) :=
  ⟨⟨by decide, by decide, by decide⟩,
    money_parsing_roundtrip chargeRows chargeCol (some "$2.00".data)
      (by decide) (by decide) (by decide)⟩

/-! ## Header deduplication (C9) -/

theorem seenLookup_seenSet (seen : List (List Char × Nat)) (n : List Char)
    (k : Nat) (m : List Char) :
    seenLookup (seenSet seen n k) m = if m = n then some k else seenLookup seen m := by
  induction seen with
  | nil =>
    by_cases h : m = n
    · simp [seenSet, seenLookup, h]
    · have h' : ¬(n = m) := fun he => h he.symm
      simp [seenSet, seenLookup, h, h']
  | cons p rest ih =>
    rw [seenSet]
    by_cases hp : p.1 = n
    · rw [if_pos hp, seenLookup, seenLookup]
      dsimp only
      by_cases hm : p.1 = m
      · rw [if_pos hm, if_pos (show m = n by rw [← hm, hp])]
      · have hmn : ¬(m = n) := by
          intro he
          exact hm (by rw [hp, he])
        rw [if_neg hm, if_neg hm, if_neg hmn]
    · rw [if_neg hp, seenLookup, seenLookup]
      by_cases hm : p.1 = m
      · have hmn : ¬(m = n) := by
          intro he
          exact hp (by rw [hm, he])
        rw [if_pos hm, if_pos hm, if_neg hmn]
      · rw [if_neg hm, if_neg hm, ih]

theorem countOcc_append (n m : List Char) (pre : List (List Char)) :
    countOcc n (pre ++ [m]) = countOcc n pre + (if n = m then 1 else 0) := by
  unfold countOcc
  rw [List.filter_append, List.length_append]
  congr 1
  by_cases h : n = m
  · subst h
    simp [List.filter_cons]
  · have h' : ¬(m = n) := fun he => h he.symm
    simp [List.filter_cons, h, h']

theorem dedupGo_spec :
    ∀ (rest : List (List Char)) (seen : List (List Char × Nat))
      (pre : List (List Char)),
      (∀ n, seenLookup seen n =
        if countOcc n pre = 0 then none else some (countOcc n pre - 1)) →
      dedupGo seen rest = specRename pre rest := by
  intro rest
  induction rest with
  | nil => intro seen pre _; rfl
  | cons name rest ih =>
    intro seen pre hinv
    have hn := hinv name
    by_cases h0 : countOcc name pre = 0
    · rw [if_pos h0] at hn
      rw [dedupGo, hn, specRename, if_pos h0]
      show name :: dedupGo (seenSet seen name 0) rest =
        name :: specRename (pre ++ [name]) rest
      congr 1
      apply ih
      intro n
      rw [seenLookup_seenSet, countOcc_append]
      by_cases hnn : n = name
      · subst hnn
        rw [if_pos rfl, if_pos rfl, h0]
        simp
      · rw [if_neg hnn, if_neg hnn, hinv n]
        simp
    · rw [if_neg h0] at hn
      rw [dedupGo, hn, specRename, if_neg h0]
      show (name ++ '_' :: natDigits (countOcc name pre - 1 + 1)) ::
          dedupGo (seenSet seen name (countOcc name pre - 1 + 1)) rest =
        (name ++ '_' :: natDigits (countOcc name pre)) ::
          specRename (pre ++ [name]) rest
      have hc : countOcc name pre - 1 + 1 = countOcc name pre := by omega
      rw [hc]
      congr 1
      apply ih
      intro n
      rw [seenLookup_seenSet, countOcc_append]
      by_cases hnn : n = name
      · subst hnn
        rw [if_pos rfl, if_pos rfl,
          if_neg (show ¬(countOcc n pre + 1 = 0) by omega)]
        simp
      · rw [if_neg hnn, if_neg hnn, hinv n]
        simp

theorem specRename_length :
    ∀ (l pre : List (List Char)), (specRename pre l).length = l.length := by
  intro l
  induction l with
  | nil => intro pre; rfl
  | cons n rest ih =>
    intro pre
    rw [specRename, List.length_cons, List.length_cons, ih]

/-- C9: deduplication processes cleaned headers left-to-right, keeps length
and order, leaves first occurrences unchanged and renames the k-th repeat of
a name to `name_k` (proved as equality with the spec-worded rule), and two
headers cleaning to `Total_Charge` yield `Total_Charge`, `Total_Charge_1`;
but the claimed pairwise distinctness of the output fails — contradicting
the function's own docstring — on `[a, a_1, a]`, whose third column is
renamed to `a_1`, colliding with the second. -/
theorem deduplicate_rename_rule_and_collision :
    (∀ l : List (List Char), deduplicate_column_names l = specRename [] l) ∧
    (∀ l : List (List Char), (deduplicate_column_names l).length = l.length) ∧
    deduplicate_column_names ["Total_Charge".data, "Total_Charge".data] =
      ["Total_Charge".data, "Total_Charge_1".data] ∧
    deduplicate_column_names [['a'], ['a', '_', '1'], ['a']] =
      [['a'], ['a', '_', '1'], ['a', '_', '1']] ∧
    ¬(deduplicate_column_names [['a'], ['a', '_', '1'], ['a']]).Nodup := by
  have hspec : ∀ l : List (List Char), deduplicate_column_names l = specRename [] l := by
    intro l
    exact dedupGo_spec l [] [] (fun n => by simp [seenLookup, countOcc])
  refine ⟨hspec, ?_, by decide, by decide, by decide⟩
  intro l
  rw [hspec]
  exact specRename_length l []

/-! ## Null cleaning (C10) -/

theorem insertValue_none (sample_rows : List CsvRow) (col : List Char) :
    insertValue sample_rows col none = .null := by
  simp only [insertValue]
  split_ifs <;> rfl

/-- C10: cleaning maps the empty string, whitespace-only strings and any
string equal to `N/A` case-insensitively to null before conversion, and a
null cleaned cell is stored as SQL NULL in every column — money, real, date
and text branches alike. -/
theorem clean_value_nullifies (raw : List Char) (sample_rows : List CsvRow)
    (col : List Char)
    (h : raw = [] ∨ raw.all pyIsSpace = true ∨ raw.map Char.toUpper = "N/A".data) :
    clean_value raw = none ∧
    insertValue sample_rows col (clean_value raw) = .null := by
  have hstrip : raw.all pyIsSpace = true → pyStrip raw = [] := by
    intro ha
    have h1 : raw.dropWhile pyIsSpace = [] :=
      List.dropWhile_eq_nil_iff.mpr (fun x hx => List.all_eq_true.mp ha x hx)
    simp [pyStrip, h1]
  have hc : clean_value raw = none := by
    unfold clean_value
    rcases h with h | h | h
    · rw [if_pos (Or.inl h)]
    · rw [if_pos (Or.inr (Or.inl (hstrip h)))]
    · rw [if_pos (Or.inr (Or.inr h))]
  rw [hc]
  exact ⟨rfl, insertValue_none sample_rows col⟩

theorem clean_value_nullifies_witness :
    (['n', '/', 'a'] = ([] : List Char) ∨ ['n', '/', 'a'].all pyIsSpace = true ∨
      ['n', '/', 'a'].map Char.toUpper = "N/A".data) ∧
    (clean_value ['n', '/', 'a'] = none ∧
      insertValue [] valCol (clean_value ['n', '/', 'a']) = .null) :=
  ⟨by decide, clean_value_nullifies ['n', '/', 'a'] [] valCol (by decide)⟩

end SqlQuiz
